import Mathlib

/-!
Shallow embedding of `diesel_async`'s PostgreSQL connection layer
(`src/pg/mod.rs`) and proofs about it.

The async Rust code is embedded as pure Lean functions: futures become their
eventual results, `futures_util::future::select` races are decided by an
explicit oracle value describing which side completed first, shared
`Arc<Mutex<_>>` state becomes explicit state passing, and fallible Rust code
returns `Except`.  External collaborators (the `diesel` core crate,
`tokio_postgres`, `tokio`) are modelled at the interface granularity at which
this repository uses them.
-/

namespace DieselAsync

/-- Kinds of `diesel::result::DatabaseErrorKind` used by this module. -/
inductive DatabaseErrorKind
  | SerializationFailure
  | UnableToSendCommand
  | ClosedConnection
  | Unknown
  deriving DecidableEq, Repr

/-- An error reported by the `tokio_postgres` wire client
(`tokio_postgres::Error`), abstracted to its display message. -/
structure TokioPgError where
  msg : String
  deriving DecidableEq, Repr

/-- Key of the diesel metadata cache: optional schema name and type name
(`diesel::pg::PgMetadataCacheKey`). -/
structure PgMetadataCacheKey where
  schema : Option String
  type_name : String
  deriving DecidableEq, Repr

/-- `diesel::pg::FailedToLookupTypeError`: records the cache key whose type
oid could not be resolved. -/
structure FailedToLookupTypeError where
  cache_key : PgMetadataCacheKey
  deriving DecidableEq, Repr

/-- The subset of `diesel::result::Error` constructed by this module:
database errors with a kind and message, and serialization errors (which in
this module always wrap a `FailedToLookupTypeError`). -/
inductive DieselError
  | DatabaseError (kind : DatabaseErrorKind) (msg : String)
  | SerializationError (e : FailedToLookupTypeError)
  deriving DecidableEq, Repr

/-- `diesel::result::QueryResult`. -/
abbrev QueryResult (T : Type) := Except DieselError T

/-- `tokio::sync::broadcast::error::RecvError`. -/
inductive RecvError
  | Closed
  | Lagged (n : Nat)
  deriving DecidableEq, Repr

/-- Display implementation of `RecvError` (from tokio). -/
def RecvError.to_string : RecvError → String
  | .Closed => "channel closed"
  | .Lagged n => "channel lagged by " ++ toString n

/-- Modelled from the spec: `error_helper::from_tokio_postgres_error` lives in
the module `error_helper`, which is not under `src/`.  The spec (§4.2, §7)
says an operation that loses the race against the liveness broadcast fails
"with a transport error derived from the broadcast payload"; `TransportError`
"wraps the wire client's reported database error".  We model it as a database
error of a dedicated non-serialization kind carrying the payload message. -/
def from_tokio_postgres_error (e : TokioPgError) : DieselError :=
  .DatabaseError .ClosedConnection e.msg

/-- Oracle for the `futures_util::future::select` race inside `drive_future`:
either the client (operation) future completed first, or the broadcast
`recv()` future completed first with its result (`Ok` payload from the
monitor, or a channel error). -/
inductive RaceWinner
  | client
  | broadcast (r : Except RecvError TokioPgError)
  deriving Repr

/-- `drive_future` (src/pg/mod.rs:553-574).  The optional broadcast
subscription is embedded together with the race outcome: `none` means no
subscription was configured (`connection_future` was `None`), `some w` gives
which future won the select.  The client future is embedded as its eventual
result `client_future`. -/
def drive_future {R : Type} (connection_future : Option RaceWinner)
    (client_future : QueryResult R) : QueryResult R :=
  match connection_future with
  | some .client => client_future
  | some (.broadcast (.ok e)) => .error (from_tokio_postgres_error e)
  | some (.broadcast (.error e)) =>
      .error (.DatabaseError .UnableToSendCommand e.to_string)
  | none => client_future

/-- Oracle for the `select(shutdown_rx, connection)` race inside the task
spawned by `establish` (src/pg/mod.rs:142-149): either the shutdown signal
won (`Either::Left`), or the I/O loop future completed with the given
result (`Either::Right`). -/
inductive MonitorSelect
  | shutdownFirst
  | ioDone (r : Except TokioPgError Unit)
  deriving Repr

/-- Body of the monitor task spawned by `establish`: the list of payloads it
sends on the broadcast channel (the task body runs exactly once, so this list
collects every broadcast over the connection's lifetime). -/
def monitor_task (sel : MonitorSelect) : List TokioPgError :=
  match sel with
  | .shutdownFirst => []
  | .ioDone (.ok _) => []
  | .ioDone (.error e) => [e]

/-- Status record of diesel's `AnsiTransactionManager`, restricted to the flag
this module touches. -/
structure TransactionManagerStatus where
  requires_rollback_maybe_up_to_top_level : Bool
  deriving DecidableEq, Repr

/-- `TransactionManagerStatus::set_requires_rollback_maybe_up_to_top_level`
from diesel. -/
def TransactionManagerStatus.set_requires_rollback_maybe_up_to_top_level
    (s : TransactionManagerStatus) (b : Bool) : TransactionManagerStatus :=
  { s with requires_rollback_maybe_up_to_top_level := b }

/-- `diesel::connection::AnsiTransactionManager`, restricted to its status
field. -/
structure AnsiTransactionManager where
  status : TransactionManagerStatus
  deriving DecidableEq, Repr

/-- `update_transaction_manager_status` (src/pg/mod.rs:225-238).  The Rust
function mutates the transaction manager behind a `&mut` and returns the
query result; we return both. -/
def update_transaction_manager_status {T : Type}
    (query_result : QueryResult T)
    (transaction_manager : AnsiTransactionManager) :
    QueryResult T × AnsiTransactionManager :=
  match query_result with
  | .error (.DatabaseError .SerializationFailure _) =>
      (query_result,
        { transaction_manager with
          status := transaction_manager.status.set_requires_rollback_maybe_up_to_top_level
            true })
  | _ => (query_result, transaction_manager)

/-- `diesel::pg::PgTypeMetadata`: either a resolved pair of oids
(type oid, array type oid) or a recorded lookup failure. -/
inductive PgTypeMetadata
  | resolved (oid : Nat) (array_oid : Nat)
  | unresolved (e : FailedToLookupTypeError)
  deriving DecidableEq, Repr

/-- `PgTypeMetadata::oid` from diesel. -/
def PgTypeMetadata.oid : PgTypeMetadata → Except FailedToLookupTypeError Nat
  | .resolved o _ => .ok o
  | .unresolved e => .error e

/-- `PgTypeMetadata::from_result` from diesel. -/
def PgTypeMetadata.from_result :
    Except FailedToLookupTypeError (Nat × Nat) → PgTypeMetadata
  | .ok (o, a) => .resolved o a
  | .error e => .unresolved e

/-- `diesel::pg::PgMetadataCache`: a map from cache keys to resolved
(oid, array oid) pairs. -/
structure PgMetadataCache where
  entries : List (PgMetadataCacheKey × (Nat × Nat))
  deriving DecidableEq, Repr

/-- `PgMetadataCache::lookup_type`. -/
def PgMetadataCache.lookup_type (c : PgMetadataCache) (k : PgMetadataCacheKey) :
    Option PgTypeMetadata :=
  (c.entries.find? fun e => decide (e.1 = k)).map fun e => .resolved e.2.1 e.2.2

/-- `PgMetadataCache::store_type`. -/
def PgMetadataCache.store_type (c : PgMetadataCache) (k : PgMetadataCacheKey)
    (v : Nat × Nat) : PgMetadataCache :=
  ⟨(k, v) :: c.entries⟩

/-- `PgAsyncMetadataLookup` (src/pg/mod.rs:499-509): the queue of
unresolved-type placeholders recorded during bind collection. -/
structure PgAsyncMetadataLookup where
  unresolved_types : List (Option String × String)
  deriving DecidableEq, Repr

/-- `PgMetadataLookup::lookup_type` for `PgAsyncMetadataLookup`
(src/pg/mod.rs:511-521): records the request in the queue and hands back an
unresolved placeholder carrying the cache key. -/
def PgAsyncMetadataLookup.lookup_type (self : PgAsyncMetadataLookup)
    (type_name : String) (schema : Option String) :
    PgTypeMetadata × PgAsyncMetadataLookup :=
  let cache_key : PgMetadataCacheKey := ⟨schema, type_name⟩
  (.unresolved ⟨cache_key⟩, ⟨self.unresolved_types ++ [(schema, type_name)]⟩)

/-- The schema-qualified catalog lookup query text (src/pg/mod.rs:531-534). -/
def typeLookupSqlWithSchema : String :=
  "SELECT pg_type.oid, pg_type.typarray FROM pg_type INNER JOIN pg_namespace ON pg_type.typnamespace = pg_namespace.oid WHERE pg_type.typname = $1 AND pg_namespace.nspname = $2 LIMIT 1"

/-- The unqualified catalog lookup query text (src/pg/mod.rs:542-544). -/
def typeLookupSqlNoSchema : String :=
  "SELECT pg_type.oid, pg_type.typarray FROM pg_type WHERE pg_type.oid = quote_ident($1)::regtype::oid LIMIT 1"

/-- Modelled from the spec: `tokio_postgres::Client::query_one` combined with
the `ErrorHelper` conversion (module `error_helper` is not under `src/`).
Spec §4.3: the catalog lookup expects exactly one row; "absence of a row or
more than one row is an error". -/
def query_one (rows : List (Nat × Nat)) : QueryResult (Nat × Nat) :=
  match rows with
  | [r] => .ok r
  | _ => .error (.DatabaseError .Unknown "query returned an unexpected number of rows")

/-- `lookup_type` (src/pg/mod.rs:523-551): runs the schema-qualified catalog
query when a schema was given, the unqualified one otherwise.  The catalog is
an oracle from (sql, parameters) to the rows the server returns. -/
def lookup_type (catalog : String → List String → List (Nat × Nat))
    (schema : Option String) (type_name : String) : QueryResult (Nat × Nat) :=
  match schema with
  | some s => query_one (catalog typeLookupSqlWithSchema [type_name, s])
  | none => query_one (catalog typeLookupSqlNoSchema [type_name])

/-- The type-resolution loop of `with_prepared_statement_after_sql_built`
(src/pg/mod.rs:431-462): walks `bind_collector.metadata`; at each slot whose
oid is unresolved it takes the next queue entry (`next_unresolved.next()`),
serving it from the metadata cache or performing a catalog lookup and storing
the result; when the queue is exhausted it breaks out of the loop.  Returns
the rewritten metadata, the final cache, and the list of catalog lookups
performed (in order). -/
def resolve_loop (catalog : String → List String → List (Nat × Nat)) :
    List PgTypeMetadata → List (Option String × String) → PgMetadataCache →
    QueryResult (List PgTypeMetadata × PgMetadataCache × List (Option String × String))
  | [], _, cache => .ok ([], cache, [])
  | m :: rest, queue, cache =>
    match PgTypeMetadata.oid m with
    | .ok _ =>
      match resolve_loop catalog rest queue cache with
      | .error e => .error e
      | .ok (ms, c, l) => .ok (m :: ms, c, l)
    | .error _ =>
      match queue with
      | [] => .ok (m :: rest, cache, [])
      | (schema, lookup_type_name) :: rest_queue =>
        let cache_key : PgMetadataCacheKey := ⟨schema, lookup_type_name⟩
        match PgMetadataCache.lookup_type cache cache_key with
        | some entry =>
          match resolve_loop catalog rest rest_queue cache with
          | .error e => .error e
          | .ok (ms, c, l) => .ok (entry :: ms, c, l)
        | none =>
          match lookup_type catalog schema lookup_type_name with
          | .error e => .error e
          | .ok type_metadata =>
            match resolve_loop catalog rest rest_queue
                (cache.store_type cache_key type_metadata) with
            | .error e => .error e
            | .ok (ms, c, l) =>
              .ok (PgTypeMetadata.from_result (.ok type_metadata) :: ms, c,
                (schema, lookup_type_name) :: l)

/-- The guarded entry to the resolution loop (src/pg/mod.rs:431): the loop
body only runs when the placeholder queue is non-empty. -/
def resolve_types (catalog : String → List String → List (Nat × Nat))
    (metadata_lookup : PgAsyncMetadataLookup) (metadata : List PgTypeMetadata)
    (cache : PgMetadataCache) :
    QueryResult (List PgTypeMetadata × PgMetadataCache × List (Option String × String)) :=
  if metadata_lookup.unresolved_types.isEmpty then .ok (metadata, cache, [])
  else resolve_loop catalog metadata metadata_lookup.unresolved_types cache

/-- Splits a metadata list at its first slot whose oid is unresolved:
returns the (fully resolved) prefix, the recorded failure of that slot, and
the suffix after it. -/
def splitAtUnresolved : List PgTypeMetadata →
    Option (List PgTypeMetadata × FailedToLookupTypeError × List PgTypeMetadata)
  | [] => none
  | .unresolved e :: rest => some ([], e, rest)
  | .resolved o a :: rest =>
    (splitAtUnresolved rest).map fun x => (.resolved o a :: x.1, x.2.1, x.2.2)

/-- Specification-level resolver following the spec's words (§4.5 step 2 and
§9): entries of the placeholder queue are consumed in FIFO order, each entry
being paired with the next metadata slot whose oid is unresolved; when the
queue is exhausted, or no unresolved slot remains, resolution stops and the
remaining slots are left untouched. -/
def fifo_resolve (catalog : String → List String → List (Nat × Nat)) :
    List (Option String × String) → List PgTypeMetadata → PgMetadataCache →
    QueryResult (List PgTypeMetadata × PgMetadataCache × List (Option String × String))
  | [], metadata, cache => .ok (metadata, cache, [])
  | (schema, name) :: rest_queue, metadata, cache =>
    match splitAtUnresolved metadata with
    | none => .ok (metadata, cache, [])
    | some (pre, _, suf) =>
      let cache_key : PgMetadataCacheKey := ⟨schema, name⟩
      match PgMetadataCache.lookup_type cache cache_key with
      | some entry =>
        match fifo_resolve catalog rest_queue suf cache with
        | .error e => .error e
        | .ok (ms, c, l) => .ok (pre ++ entry :: ms, c, l)
      | none =>
        match lookup_type catalog schema name with
        | .error e => .error e
        | .ok tm =>
          match fifo_resolve catalog rest_queue suf (cache.store_type cache_key tm) with
          | .error e => .error e
          | .ok (ms, c, l) =>
            .ok (pre ++ PgTypeMetadata.from_result (.ok tm) :: ms, c, (schema, name) :: l)

/-- Number of metadata slots whose oid is unresolved. -/
def unresolvedCount (ms : List PgTypeMetadata) : Nat :=
  (ms.filter fun m => match m with | .unresolved _ => true | _ => false).length

/-- A server-side prepared statement handle (`tokio_postgres::Statement`),
abstracted to an identifier. -/
structure Statement where
  handle : Nat
  deriving DecidableEq, Repr

/-- `diesel::connection::statement_cache::StatementCacheKey`: a static type
identity token (`TypeId`, modelled as a number) or the pair of SQL text and
bind-type list. -/
inductive StatementCacheKey
  | Type (type_id : Nat)
  | Sql (sql : String) (bind_types : List PgTypeMetadata)
  deriving DecidableEq, Repr

/-- The statement-cache key computation
(src/pg/mod.rs:463-469): the static identity token when the compiler supplies
one, else the (SQL, bind types) pair. -/
def statement_cache_key (query_id : Option Nat) (sql : String)
    (bind_metadata : List PgTypeMetadata) : StatementCacheKey :=
  match query_id with
  | some id => .Type id
  | none => .Sql sql bind_metadata

/-- `diesel::connection::statement_cache::PrepareForCache`. -/
inductive PrepareForCache
  | Yes
  | No
  deriving DecidableEq, Repr

/-- Modelled from the spec: `crate::stmt_cache::StmtCache` (module
`stmt_cache` is not under `src/`).  Spec §3: an entry maps a key to the pair
(server statement handle, bind-type fingerprint). -/
structure StmtCache where
  cache : List (StatementCacheKey × Statement × List PgTypeMetadata)
  deriving DecidableEq, Repr

/-- Lookup of a statement cache entry by key. -/
def StmtCache.lookup (c : StmtCache) (k : StatementCacheKey) :
    Option (Statement × List PgTypeMetadata) :=
  (c.cache.find? fun e => decide (e.1 = k)).map fun e => e.2

/-- Modelled from the spec: `StmtCache::cached_prepared_statement` (module
`stmt_cache` is not under `src/`).  Spec §4.4: if the cache policy says
unsafe, always prepare fresh and never insert into the cache; if safe and the
key is present with a matching bind-type fingerprint, return the cached
handle; if safe and absent, or present with mismatched fingerprint, prepare
against the wire client and insert (overwrite); preparation errors propagate
uncached.  Returns the statement, the updated cache and the number of prepare
calls issued to the wire client. -/
def StmtCache.cached_prepared_statement (c : StmtCache)
    (key : StatementCacheKey) (sql : String) (is_safe_to_cache_prepared : Bool)
    (bind_types : List PgTypeMetadata)
    (prepare_fn : String → List PgTypeMetadata → PrepareForCache → QueryResult Statement) :
    QueryResult (Statement × StmtCache × Nat) :=
  if is_safe_to_cache_prepared then
    match c.lookup key with
    | some (stmt, fp) =>
      if fp = bind_types then .ok (stmt, c, 0)
      else
        match prepare_fn sql bind_types .Yes with
        | .error e => .error e
        | .ok stmt => .ok (stmt, ⟨(key, stmt, bind_types) :: c.cache⟩, 1)
    | none =>
      match prepare_fn sql bind_types .Yes with
      | .error e => .error e
      | .ok stmt => .ok (stmt, ⟨(key, stmt, bind_types) :: c.cache⟩, 1)
  else
    match prepare_fn sql bind_types .No with
    | .error e => .error e
    | .ok stmt => .ok (stmt, c, 1)

/-- An `Arc<Mutex<T>>` abstracted to its strong reference count and its
contents (this module never creates weak references, so `Arc::get_mut`
succeeding is equivalent to the strong count being one). -/
structure Arc (T : Type) where
  strong_count : Nat
  value : T

/-- `Arc::get_mut`: mutable access iff the caller holds the only reference. -/
def Arc.get_mut {T : Type} (a : Arc T) : Option T :=
  if a.strong_count = 1 then some a.value else none

/-- `AsyncPgConnection::transaction_state` (src/pg/mod.rs:176-185): `none`
models the `panic!("Cannot access shared transaction state")` branch taken
when `Arc::get_mut` reports other live references. -/
def transaction_state (ts : Arc AnsiTransactionManager) :
    Option AnsiTransactionManager :=
  match ts.get_mut with
  | some tm => some tm
  | none => none

/-- `tokio_postgres::types::Kind`, restricted to the variant this module
constructs. -/
inductive Kind
  | Simple
  deriving DecidableEq, Repr

/-- `tokio_postgres::types::Type`: name, oid, kind and schema. -/
structure PgType where
  name : String
  oid : Nat
  kind : Kind
  schema : String
  deriving DecidableEq, Repr

/-- `type_from_oid` (src/pg/mod.rs:261-276).  `Type::from_oid` (the table of
built-in Postgres types, from tokio_postgres) is passed as an oracle. -/
def type_from_oid (from_oid : Nat → Option PgType) (t : PgTypeMetadata) :
    QueryResult PgType :=
  match t.oid with
  | .error e => .error (.SerializationError e)
  | .ok oid =>
    match from_oid oid with
    | some tpe => .ok tpe
    | none => .ok ⟨"diesel_custom_type", oid, .Simple, "public"⟩

/-- The `.collect::<QueryResult<Vec<_>>>()` over `type_from_oid`
(src/pg/mod.rs:248-251): short-circuits on the first error. -/
def collect_bind_types (from_oid : Nat → Option PgType) :
    List PgTypeMetadata → QueryResult (List PgType)
  | [] => .ok []
  | m :: rest =>
    match type_from_oid from_oid m with
    | .error e => .error e
    | .ok t =>
      match collect_bind_types from_oid rest with
      | .error e => .error e
      | .ok ts => .ok (t :: ts)

/-- `PrepareCallback::prepare` for `Arc<tokio_postgres::Client>`
(src/pg/mod.rs:240-259): maps the bind metadata through `type_from_oid`,
then prepares with the computed types.  `prepare_typed` is the wire client
oracle. -/
def prepare (from_oid : Nat → Option PgType)
    (prepare_typed : String → List PgType → QueryResult Statement)
    (sql : String) (metadata : List PgTypeMetadata) : QueryResult Statement :=
  match collect_bind_types from_oid metadata with
  | .error e => .error e
  | .ok bind_types => prepare_typed sql bind_types

/-- The recorded failure of the first metadata slot whose oid is
unresolved, if any. -/
def firstLookupFailure : List PgTypeMetadata → Option FailedToLookupTypeError
  | [] => none
  | .unresolved e :: _ => some e
  | .resolved _ _ :: rest => firstLookupFailure rest

/-!
Pipelining scenario (src/pg/mod.rs:597-615 and the `load` path at
src/pg/mod.rs:154-163): two independent scalar queries `SELECT 1` and
`SELECT 2` are submitted as two futures on the same connection and polled
concurrently.  The tokio runtime and the wire protocol are embedded as a
step relation: the wire carries a FIFO queue of submitted requests (the
client sends requests in submission order and the server answers them in
order), and each future is pending, submitted, or completed with a value.
-/

/-- The server's evaluation of the scalar query `SELECT n`. -/
def eval_select (n : Nat) : Nat := n

/-- State of one query future in the pipelining scenario. -/
inductive FutureState
  | pending
  | submitted
  | done (v : Nat)
  deriving DecidableEq, Repr

/-- State of the pipelining scenario: the wire's FIFO request queue (each
entry tagged with the future that submitted it — `false` for the `SELECT 1`
future, `true` for the `SELECT 2` future — and the literal of its query) and
the two futures. -/
structure PipelineState where
  wire : List (Bool × Nat)
  f1 : FutureState
  f2 : FutureState
  deriving DecidableEq, Repr

/-- Initial state: nothing submitted. -/
def initPipeline : PipelineState := ⟨[], .pending, .pending⟩

/-- One scheduler step of the pipelining scenario: polling a pending future
submits its query at the back of the wire queue; the server answers the
request at the front of the queue, completing the tagged future with the
evaluated result. -/
inductive PipelineStep : PipelineState → PipelineState → Prop
  | submit1 (s : PipelineState) (h : s.f1 = .pending) :
      PipelineStep s ⟨s.wire ++ [(false, 1)], .submitted, s.f2⟩
  | submit2 (s : PipelineState) (h : s.f2 = .pending) :
      PipelineStep s ⟨s.wire ++ [(true, 2)], s.f1, .submitted⟩
  | respond1 (s : PipelineState) (n : Nat) (rest : List (Bool × Nat))
      (h : s.wire = (false, n) :: rest) :
      PipelineStep s ⟨rest, .done (eval_select n), s.f2⟩
  | respond2 (s : PipelineState) (n : Nat) (rest : List (Bool × Nat))
      (h : s.wire = (true, n) :: rest) :
      PipelineStep s ⟨rest, s.f1, .done (eval_select n)⟩

/-- States reachable from the initial pipelining state under any
interleaving of the two futures' polls and the server's replies. -/
def PipelineReachable (s : PipelineState) : Prop :=
  Relation.ReflTransGen PipelineStep initPipeline s

/-!  Theorems  -/

/-- C1: For every operation driven with a liveness subscription,
`drive_future` resolves to the operation's own result if the operation
future completes first; if the liveness broadcast delivers an error first,
it fails with a transport error derived from the broadcast payload; if the
broadcast receive itself fails (sender dropped without firing), it fails
with a distinct "unable to send command" database error wrapping the
channel error's message; and with no subscription configured, it returns
exactly the operation future's own result. -/
theorem drive_future_race_semantics {R : Type} (client_future : QueryResult R)
    (e : TokioPgError) (re : RecvError) :
    drive_future (some .client) client_future = client_future
    ∧ drive_future (some (.broadcast (.ok e))) client_future
        = .error (from_tokio_postgres_error e)
    ∧ drive_future (some (.broadcast (.error re))) client_future
        = .error (.DatabaseError .UnableToSendCommand re.to_string)
    ∧ DieselError.DatabaseError .UnableToSendCommand re.to_string
        ≠ from_tokio_postgres_error e
    ∧ drive_future none client_future = client_future := by
  refine ⟨rfl, rfl, rfl, ?_, rfl⟩
  simp [from_tokio_postgres_error]

/-- C2: The monitor task spawned by `establish` broadcasts on the error
channel exactly when the I/O loop completes with an error before the
shutdown signal fires; if the shutdown signal wins the race or the I/O loop
completes successfully, no broadcast is sent; and at most one broadcast ever
occurs per connection. -/
theorem monitor_task_broadcast_semantics (sel : MonitorSelect) (e : TokioPgError) :
    (monitor_task sel = [e] ↔ sel = .ioDone (.error e))
    ∧ monitor_task .shutdownFirst = []
    ∧ monitor_task (.ioDone (.ok ())) = []
    ∧ (monitor_task sel).length ≤ 1 := by
  refine ⟨?_, rfl, rfl, ?_⟩
  · cases sel with
    | shutdownFirst => simp [monitor_task]
    | ioDone r =>
      cases r with
      | ok u => simp [monitor_task]
      | error e2 => simp [monitor_task]
  · cases sel with
    | shutdownFirst => simp [monitor_task]
    | ioDone r => cases r <;> simp [monitor_task]

/-- C3: `update_transaction_manager_status` returns the input result
unchanged; it sets the transaction status to "requires rollback maybe up to
top level" exactly when the result is an `Err` carrying a database error of
kind `SerializationFailure`, and leaves the transaction manager untouched
for every other result. -/
theorem update_transaction_manager_status_semantics {T : Type}
    (query_result : QueryResult T) (tm : AnsiTransactionManager) :
    (update_transaction_manager_status query_result tm).1 = query_result
    ∧ (∀ msg, query_result = .error (.DatabaseError .SerializationFailure msg) →
        (update_transaction_manager_status query_result tm).2 =
          { tm with
            status := tm.status.set_requires_rollback_maybe_up_to_top_level true })
    ∧ ((∀ msg, query_result ≠ .error (.DatabaseError .SerializationFailure msg)) →
        (update_transaction_manager_status query_result tm).2 = tm) := by
  refine ⟨?_, ?_, ?_⟩
  · cases query_result with
    | ok v => rfl
    | error err =>
      cases err with
      | DatabaseError k msg => cases k <;> rfl
      | SerializationError e => rfl
  · intro msg h
    subst h
    rfl
  · intro h
    cases query_result with
    | ok v => rfl
    | error err =>
      cases err with
      | DatabaseError k msg =>
        cases k with
        | SerializationFailure => exact absurd rfl (h msg)
        | UnableToSendCommand => rfl
        | ClosedConnection => rfl
        | Unknown => rfl
      | SerializationError e => rfl

/-- Witness for C3 at a concrete serialization failure and a concrete
non-serialization result. -/
theorem update_transaction_manager_status_semantics_witness :
    (update_transaction_manager_status (T := Nat)
        (.error (.DatabaseError .SerializationFailure "serialization failure"))
        ⟨⟨false⟩⟩).2 = ⟨⟨true⟩⟩
    ∧ (update_transaction_manager_status (T := Nat) (.ok 3) ⟨⟨false⟩⟩).2 = ⟨⟨false⟩⟩ := by
  constructor
  · exact (update_transaction_manager_status_semantics (T := Nat)
      (.error (.DatabaseError .SerializationFailure "serialization failure"))
      ⟨⟨false⟩⟩).2.1 "serialization failure" rfl
  · exact (update_transaction_manager_status_semantics (T := Nat)
      (.ok 3) ⟨⟨false⟩⟩).2.2 (fun msg h => by cases h)

/-- C7: The statement-cache key is the query's static type identity token
when the compiler supplies one, and otherwise the pair of the rendered SQL
text and the ordered bind-type list; in particular a supplied identity token
makes the key independent of SQL and bind types, while without one the keys
of two queries coincide exactly when both SQL and bind types coincide, and
the two key families never overlap. -/
theorem statement_cache_key_semantics (id : Nat) (sql sql2 : String)
    (b b2 : List PgTypeMetadata) :
    statement_cache_key (some id) sql b = .Type id
    ∧ statement_cache_key none sql b = .Sql sql b
    ∧ statement_cache_key (some id) sql b = statement_cache_key (some id) sql2 b2
    ∧ (statement_cache_key none sql b = statement_cache_key none sql2 b2
        ↔ sql = sql2 ∧ b = b2)
    ∧ statement_cache_key (some id) sql b ≠ statement_cache_key none sql2 b2 := by
  refine ⟨rfl, rfl, rfl, ?_, ?_⟩ <;> simp [statement_cache_key]

/-- C8: `transaction_state` yields the transaction manager exactly when the
connection holds the only reference to the shared state, and panics
(modelled as `none`) whenever the reference count is greater than one. -/
theorem transaction_state_exclusive (ts : Arc AnsiTransactionManager)
    (h : 1 ≤ ts.strong_count) :
    (transaction_state ts = some ts.value ↔ ts.strong_count = 1)
    ∧ (1 < ts.strong_count → transaction_state ts = none) := by
  constructor
  · by_cases hc : ts.strong_count = 1 <;>
      simp [transaction_state, Arc.get_mut, hc]
  · intro hlt
    have hc : ts.strong_count ≠ 1 := by omega
    simp [transaction_state, Arc.get_mut, hc]

/-- Witness for C8: with two live references the accessor panics; with one
it hands out the state. -/
theorem transaction_state_exclusive_witness :
    transaction_state ⟨2, ⟨⟨false⟩⟩⟩ = none
    ∧ transaction_state ⟨1, ⟨⟨false⟩⟩⟩ = some ⟨⟨false⟩⟩ := by
  constructor
  · exact (transaction_state_exclusive ⟨2, ⟨⟨false⟩⟩⟩ (by decide)).2 (by decide)
  · exact (transaction_state_exclusive ⟨1, ⟨⟨false⟩⟩⟩ (by decide)).1.mpr rfl

/-- Collecting bind types short-circuits at the first metadata slot whose
oid is unresolved, wrapping its recorded lookup failure. -/
theorem collect_bind_types_first_failure (f : Nat → Option PgType)
    (metadata : List PgTypeMetadata) (e : FailedToLookupTypeError)
    (h : firstLookupFailure metadata = some e) :
    collect_bind_types f metadata = .error (.SerializationError e) := by
  induction metadata with
  | nil => simp [firstLookupFailure] at h
  | cons m rest ih =>
    cases m with
    | unresolved e2 =>
      simp [firstLookupFailure] at h
      subst h
      simp [collect_bind_types, type_from_oid, PgTypeMetadata.oid]
    | resolved o a =>
      simp only [firstLookupFailure] at h
      have hr := ih h
      cases hfo : f o <;>
        simp [collect_bind_types, type_from_oid, PgTypeMetadata.oid, hfo, hr]

/-- C9: for every bind-type metadata entry handed to the prepare callback,
an unresolved oid makes `prepare` return a `SerializationError` wrapping the
recorded lookup failure (no panic); an oid of a built-in type yields that
type; any other oid yields the synthetic simple type named
"diesel_custom_type" in schema "public" carrying that oid. -/
theorem prepare_callback_type_semantics (f : Nat → Option PgType)
    (prepare_typed : String → List PgType → QueryResult Statement)
    (sql : String) (metadata : List PgTypeMetadata)
    (e : FailedToLookupTypeError) (o a : Nat) (tpe : PgType) :
    type_from_oid f (.unresolved e) = .error (.SerializationError e)
    ∧ (f o = some tpe → type_from_oid f (.resolved o a) = .ok tpe)
    ∧ (f o = none → type_from_oid f (.resolved o a)
        = .ok ⟨"diesel_custom_type", o, .Simple, "public"⟩)
    ∧ (firstLookupFailure metadata = some e →
        prepare f prepare_typed sql metadata = .error (.SerializationError e)) := by
  refine ⟨rfl, ?_, ?_, ?_⟩
  · intro hf
    simp [type_from_oid, PgTypeMetadata.oid, hf]
  · intro hf
    simp [type_from_oid, PgTypeMetadata.oid, hf]
  · intro h
    simp [prepare, collect_bind_types_first_failure f metadata e h]

/-- Witness for C9: a metadata list whose second entry is unresolved while
the first carries an unknown oid, prepared against a client that knows no
built-in types. -/
theorem prepare_callback_type_semantics_witness :
    type_from_oid (fun _ => none) (.resolved 77 78)
      = .ok ⟨"diesel_custom_type", 77, .Simple, "public"⟩
    ∧ prepare (fun _ => none) (fun _ _ => .ok ⟨1⟩) "SELECT 1"
        [.resolved 77 78, .unresolved ⟨⟨none, "citext"⟩⟩]
      = .error (.SerializationError ⟨⟨none, "citext"⟩⟩) := by
  constructor
  · exact (prepare_callback_type_semantics (fun _ => none) (fun _ _ => .ok ⟨1⟩)
      "SELECT 1" [] ⟨⟨none, "citext"⟩⟩ 77 78
      ⟨"diesel_custom_type", 77, .Simple, "public"⟩).2.2.1 rfl
  · exact (prepare_callback_type_semantics (fun _ => none) (fun _ _ => .ok ⟨1⟩)
      "SELECT 1" [.resolved 77 78, .unresolved ⟨⟨none, "citext"⟩⟩]
      ⟨⟨none, "citext"⟩⟩ 77 78
      ⟨"diesel_custom_type", 77, .Simple, "public"⟩).2.2.2 rfl

/-- C5: an unsafe-to-cache query always prepares fresh against the wire
client and inserts nothing into the statement cache; a safe query whose key
is present with a matching bind-type fingerprint gets the cached handle
with zero prepare calls; and after a safe miss is prepared and inserted, an
identical second issuance performs zero prepare calls. -/
theorem stmt_cache_policy_semantics (c : StmtCache) (key : StatementCacheKey)
    (sql : String) (bind_types : List PgTypeMetadata)
    (prepare_fn : String → List PgTypeMetadata → PrepareForCache → QueryResult Statement)
    (stmt : Statement) :
    (∀ stmt2 c2 n,
        StmtCache.cached_prepared_statement c key sql false bind_types prepare_fn
          = .ok (stmt2, c2, n) →
        c2 = c ∧ n = 1 ∧ prepare_fn sql bind_types .No = .ok stmt2)
    ∧ (c.lookup key = some (stmt, bind_types) →
        StmtCache.cached_prepared_statement c key sql true bind_types prepare_fn
          = .ok (stmt, c, 0))
    ∧ (∀ stmt2 c2 n, c.lookup key = none →
        StmtCache.cached_prepared_statement c key sql true bind_types prepare_fn
          = .ok (stmt2, c2, n) →
        n = 1
        ∧ StmtCache.cached_prepared_statement c2 key sql true bind_types prepare_fn
            = .ok (stmt2, c2, 0)) := by
  refine ⟨?_, ?_, ?_⟩
  · intro stmt2 c2 n h
    cases hp : prepare_fn sql bind_types .No with
    | error err => simp [StmtCache.cached_prepared_statement, hp] at h
    | ok st =>
      simp [StmtCache.cached_prepared_statement, hp] at h
      obtain ⟨h1, h2, h3⟩ := h
      exact ⟨h2.symm, h3.symm, by rw [h1]⟩
  · intro hl
    simp [StmtCache.cached_prepared_statement, hl]
  · intro stmt2 c2 n hl h
    cases hp : prepare_fn sql bind_types .Yes with
    | error err => simp [StmtCache.cached_prepared_statement, hl, hp] at h
    | ok st =>
      simp [StmtCache.cached_prepared_statement, hl, hp] at h
      obtain ⟨h1, h2, h3⟩ := h
      subst h1 h3
      refine ⟨rfl, ?_⟩
      have hlook : StmtCache.lookup c2 key = some (st, bind_types) := by
        rw [← h2]
        simp [StmtCache.lookup, List.find?]
      simp [StmtCache.cached_prepared_statement, hlook]

/-- Witness for C5: a safe miss prepares once and inserts; the identical
second issuance hits the cache with zero prepare calls; an unsafe issuance
leaves the cache untouched. -/
theorem stmt_cache_policy_semantics_witness :
    StmtCache.cached_prepared_statement ⟨[]⟩ (.Type 0) "SELECT 1" true []
        (fun _ _ _ => .ok ⟨5⟩)
      = .ok (⟨5⟩, ⟨[(.Type 0, ⟨5⟩, [])]⟩, 1)
    ∧ StmtCache.cached_prepared_statement ⟨[(.Type 0, ⟨5⟩, [])]⟩ (.Type 0)
        "SELECT 1" true [] (fun _ _ _ => .ok ⟨5⟩)
      = .ok (⟨5⟩, ⟨[(.Type 0, ⟨5⟩, [])]⟩, 0)
    ∧ StmtCache.cached_prepared_statement ⟨[]⟩ (.Type 0) "SELECT 1" false []
        (fun _ _ _ => .ok ⟨5⟩)
      = .ok (⟨5⟩, ⟨[]⟩, 1) := by
  refine ⟨by rfl, ?_, by rfl⟩
  have h := (stmt_cache_policy_semantics ⟨[(.Type 0, ⟨5⟩, [])]⟩ (.Type 0)
    "SELECT 1" [] (fun _ _ _ => .ok ⟨5⟩) ⟨5⟩).2.1
  exact h (by rfl)

/-- A metadata list with no unresolved slot passes through the resolution
loop untouched, whatever the queue and cache. -/
theorem resolve_loop_all_resolved
    (catalog : String → List String → List (Nat × Nat))
    (ms : List PgTypeMetadata) (h : splitAtUnresolved ms = none) :
    ∀ queue cache, resolve_loop catalog ms queue cache = .ok (ms, cache, []) := by
  induction ms with
  | nil => intro queue cache; simp [resolve_loop]
  | cons m rest ih =>
    cases m with
    | unresolved e => simp [splitAtUnresolved] at h
    | resolved o a =>
      have h3 : splitAtUnresolved rest = none := by
        cases hx : splitAtUnresolved rest with
        | none => rfl
        | some x => simp [splitAtUnresolved, hx] at h
      intro queue cache
      simp [resolve_loop, PgTypeMetadata.oid, ih h3 queue cache]

/-- Prepending a resolved slot commutes with the specification-level
resolver. -/
theorem fifo_resolve_cons_resolved
    (catalog : String → List String → List (Nat × Nat)) (o a : Nat)
    (queue : List (Option String × String)) (rest : List PgTypeMetadata)
    (cache : PgMetadataCache) :
    fifo_resolve catalog queue (.resolved o a :: rest) cache
      = match fifo_resolve catalog queue rest cache with
        | .error e => .error e
        | .ok (ms, c, l) => .ok (.resolved o a :: ms, c, l) := by
  cases queue with
  | nil => simp [fifo_resolve]
  | cons q rest_queue =>
    obtain ⟨schema, name⟩ := q
    cases hs : splitAtUnresolved rest with
    | none =>
      have h2 : splitAtUnresolved (.resolved o a :: rest) = none := by
        simp [splitAtUnresolved, hs]
      simp [fifo_resolve, h2, hs]
    | some x =>
      obtain ⟨pre, e, suf⟩ := x
      have h2 : splitAtUnresolved (.resolved o a :: rest)
          = some (.resolved o a :: pre, e, suf) := by
        simp [splitAtUnresolved, hs]
      simp only [fifo_resolve, h2, hs]
      cases hl : PgMetadataCache.lookup_type cache ⟨schema, name⟩ with
      | some entry =>
        simp only [hl]
        cases hf : fifo_resolve catalog rest_queue suf cache with
        | error e2 => simp [hf]
        | ok out => obtain ⟨ms, c, l⟩ := out; simp [hf]
      | none =>
        simp only [hl]
        cases hlt : lookup_type catalog schema name with
        | error e2 => simp [hlt]
        | ok tm =>
          simp only [hlt]
          cases hf : fifo_resolve catalog rest_queue suf
              (cache.store_type ⟨schema, name⟩ tm) with
          | error e2 => simp [hf]
          | ok out => obtain ⟨ms, c, l⟩ := out; simp [hf]

/-- The resolution loop of the source equals the specification-level FIFO
resolver. -/
theorem resolve_loop_eq_fifo
    (catalog : String → List String → List (Nat × Nat))
    (metadata : List PgTypeMetadata) :
    ∀ queue cache, resolve_loop catalog metadata queue cache
      = fifo_resolve catalog queue metadata cache := by
  induction metadata with
  | nil =>
    intro queue cache
    cases queue with
    | nil => simp [resolve_loop, fifo_resolve]
    | cons q rest_queue =>
      obtain ⟨schema, name⟩ := q
      simp [resolve_loop, fifo_resolve, splitAtUnresolved]
  | cons m rest ih =>
    intro queue cache
    cases m with
    | resolved o a =>
      rw [fifo_resolve_cons_resolved]
      simp only [resolve_loop, PgTypeMetadata.oid]
      rw [ih queue cache]
    | unresolved e =>
      cases queue with
      | nil => simp [resolve_loop, fifo_resolve, PgTypeMetadata.oid]
      | cons q rest_queue =>
        obtain ⟨schema, name⟩ := q
        have h2 : splitAtUnresolved (.unresolved e :: rest) = some ([], e, rest) := by
          simp [splitAtUnresolved]
        simp only [resolve_loop, PgTypeMetadata.oid, fifo_resolve, h2]
        cases hl : PgMetadataCache.lookup_type cache ⟨schema, name⟩ with
        | some entry =>
          simp only [hl]
          rw [ih rest_queue cache]
          cases hf : fifo_resolve catalog rest_queue rest cache with
          | error e2 => simp [hf]
          | ok out => obtain ⟨ms, c, l⟩ := out; simp [hf]
        | none =>
          simp only [hl]
          cases hlt : lookup_type catalog schema name with
          | error e2 => simp [hlt]
          | ok tm =>
            simp only [hlt]
            rw [ih rest_queue (cache.store_type ⟨schema, name⟩ tm)]
            cases hf : fifo_resolve catalog rest_queue rest
                (cache.store_type ⟨schema, name⟩ tm) with
            | error e2 => simp [hf]
            | ok out => obtain ⟨ms, c, l⟩ := out; simp [hf]

theorem unresolvedCount_cons_resolved (o a : Nat) (ms : List PgTypeMetadata) :
    unresolvedCount (.resolved o a :: ms) = unresolvedCount ms := by
  simp [unresolvedCount]

theorem unresolvedCount_cons_unresolved (e : FailedToLookupTypeError)
    (ms : List PgTypeMetadata) :
    unresolvedCount (.unresolved e :: ms) = unresolvedCount ms + 1 := by
  simp [unresolvedCount, List.filter]

/-- When the catalog answers every lookup query with exactly one row, the
catalog lookup always succeeds. -/
theorem lookup_type_ok_of_single_row
    (catalog : String → List String → List (Nat × Nat))
    (hcat : ∀ sql args, (catalog sql args).length = 1)
    (schema : Option String) (name : String) :
    ∃ v, lookup_type catalog schema name = .ok v := by
  cases schema with
  | some s =>
    obtain ⟨r, hr⟩ := List.length_eq_one.mp (hcat typeLookupSqlWithSchema [name, s])
    exact ⟨r, by simp [lookup_type, query_one, hr]⟩
  | none =>
    obtain ⟨r, hr⟩ := List.length_eq_one.mp (hcat typeLookupSqlNoSchema [name])
    exact ⟨r, by simp [lookup_type, query_one, hr]⟩

/-- A metadata-cache hit always hands back a resolved entry. -/
theorem cache_lookup_resolved (c : PgMetadataCache) (k : PgMetadataCacheKey)
    (entry : PgTypeMetadata) (h : c.lookup_type k = some entry) :
    ∃ o a, entry = .resolved o a := by
  unfold PgMetadataCache.lookup_type at h
  cases hf : c.entries.find? fun e => decide (e.1 = k) with
  | none => rw [hf] at h; cases h
  | some x =>
    rw [hf] at h
    simp at h
    exact ⟨x.2.1, x.2.2, h.symm⟩

/-- If the catalog answers every lookup with exactly one row and the queue
is at most as long as the number of unresolved slots, the resolution loop
succeeds, consuming the whole queue and leaving exactly the excess slots
unresolved. -/
theorem resolve_loop_queue_exhaustion
    (catalog : String → List String → List (Nat × Nat))
    (hcat : ∀ sql args, (catalog sql args).length = 1)
    (metadata : List PgTypeMetadata) :
    ∀ queue cache, queue.length ≤ unresolvedCount metadata →
      ∃ ms c l, resolve_loop catalog metadata queue cache = .ok (ms, c, l)
        ∧ unresolvedCount ms = unresolvedCount metadata - queue.length := by
  induction metadata with
  | nil =>
    intro queue cache hq
    have : queue = [] := List.eq_nil_of_length_eq_zero (by
      simpa [unresolvedCount] using Nat.le_antisymm hq (Nat.zero_le _))
    subst this
    exact ⟨[], cache, [], by simp [resolve_loop], by simp [unresolvedCount]⟩
  | cons m rest ih =>
    intro queue cache hq
    cases m with
    | resolved o a =>
      rw [unresolvedCount_cons_resolved] at hq
      obtain ⟨ms, c, l, hres, hcount⟩ := ih queue cache hq
      refine ⟨.resolved o a :: ms, c, l, ?_, ?_⟩
      · simp [resolve_loop, PgTypeMetadata.oid, hres]
      · rw [unresolvedCount_cons_resolved, unresolvedCount_cons_resolved, hcount]
    | unresolved e =>
      cases queue with
      | nil =>
        refine ⟨.unresolved e :: rest, cache, [], ?_, ?_⟩
        · simp [resolve_loop, PgTypeMetadata.oid]
        · simp
      | cons q rest_queue =>
        obtain ⟨schema, name⟩ := q
        rw [unresolvedCount_cons_unresolved] at hq
        simp only [List.length_cons] at hq
        have hq2 : rest_queue.length ≤ unresolvedCount rest := by omega
        cases hl : PgMetadataCache.lookup_type cache ⟨schema, name⟩ with
        | some entry =>
          obtain ⟨eo, ea, hent⟩ := cache_lookup_resolved cache _ entry hl
          obtain ⟨ms, c, l, hres, hcount⟩ := ih rest_queue cache hq2
          refine ⟨entry :: ms, c, l, ?_, ?_⟩
          · simp [resolve_loop, PgTypeMetadata.oid, hl, hres]
          · subst hent
            rw [unresolvedCount_cons_resolved, hcount,
              unresolvedCount_cons_unresolved]
            simp only [List.length_cons]
            omega
        | none =>
          obtain ⟨v, hv⟩ := lookup_type_ok_of_single_row catalog hcat schema name
          obtain ⟨vo, va⟩ := v
          obtain ⟨ms, c, l, hres, hcount⟩ :=
            ih rest_queue (cache.store_type ⟨schema, name⟩ (vo, va)) hq2
          refine ⟨.resolved vo va :: ms, c, (schema, name) :: l, ?_, ?_⟩
          · simp [resolve_loop, PgTypeMetadata.oid, hl, hv, hres,
              PgTypeMetadata.from_result]
          · rw [unresolvedCount_cons_resolved, hcount,
              unresolvedCount_cons_unresolved]
            simp only [List.length_cons]
            omega

/-- C4: the unresolved-type placeholder queue is consumed in FIFO order,
each entry paired with the next bind metadata slot whose oid is unresolved
(the code's resolution loop coincides with the specification-level FIFO
resolver), and when the queue is exhausted while unresolved slots remain,
resolution silently stops with no error, leaving exactly the remaining
slots unresolved. -/
theorem resolution_fifo_and_silent_stop
    (catalog : String → List String → List (Nat × Nat))
    (metadata : List PgTypeMetadata) (queue : List (Option String × String))
    (cache : PgMetadataCache) :
    resolve_loop catalog metadata queue cache
      = fifo_resolve catalog queue metadata cache
    ∧ ((∀ sql args, (catalog sql args).length = 1) →
        queue.length ≤ unresolvedCount metadata →
        ∃ ms c l, resolve_loop catalog metadata queue cache = .ok (ms, c, l)
          ∧ unresolvedCount ms = unresolvedCount metadata - queue.length) := by
  refine ⟨resolve_loop_eq_fifo catalog metadata queue cache, ?_⟩
  intro hcat hq
  exact resolve_loop_queue_exhaustion catalog hcat metadata queue cache hq

/-- Witness for C4: two unresolved slots against a one-entry queue — the
loop fills the first slot, then stops silently, leaving the second slot
unresolved. -/
theorem resolution_fifo_and_silent_stop_witness :
    ∃ ms c l,
      resolve_loop (fun _ _ => [(7, 8)])
          [.unresolved ⟨⟨none, "t"⟩⟩, .unresolved ⟨⟨none, "t"⟩⟩]
          [(none, "t")] ⟨[]⟩
        = .ok (ms, c, l)
      ∧ unresolvedCount ms
          = unresolvedCount
              [PgTypeMetadata.unresolved ⟨⟨none, "t"⟩⟩,
               PgTypeMetadata.unresolved ⟨⟨none, "t"⟩⟩] - 1 := by
  exact (resolution_fifo_and_silent_stop (fun _ _ => [(7, 8)])
    [.unresolved ⟨⟨none, "t"⟩⟩, .unresolved ⟨⟨none, "t"⟩⟩]
    [(none, "t")] ⟨[]⟩).2 (fun _ _ => rfl) (by decide)

/-- Storing a key makes it immediately retrievable as a resolved entry. -/
theorem store_lookup_self (cache : PgMetadataCache) (k : PgMetadataCacheKey)
    (v : Nat × Nat) :
    (cache.store_type k v).lookup_type k = some (.resolved v.1 v.2) := by
  simp [PgMetadataCache.store_type, PgMetadataCache.lookup_type, List.find?]

/-- Storing one key does not change lookups of a different key. -/
theorem store_lookup_other (cache : PgMetadataCache) (k0 k : PgMetadataCacheKey)
    (v : Nat × Nat) (h : k ≠ k0) :
    (cache.store_type k0 v).lookup_type k = cache.lookup_type k := by
  simp [PgMetadataCache.store_type, PgMetadataCache.lookup_type, List.find?,
    Ne.symm h]

/-- Storing a key preserves the presence of every key. -/
theorem store_preserves_lookup (cache : PgMetadataCache)
    (k0 k : PgMetadataCacheKey) (v : Nat × Nat)
    (h : (cache.lookup_type k).isSome) :
    ((cache.store_type k0 v).lookup_type k).isSome := by
  by_cases hk : k = k0
  · subst hk; simp [store_lookup_self]
  · rw [store_lookup_other cache k0 k v hk]; exact h

/-- A successful resolution run never evicts metadata-cache entries: every
key present at the start is present at the end. -/
theorem resolve_loop_cache_mono
    (catalog : String → List String → List (Nat × Nat))
    (metadata : List PgTypeMetadata) :
    ∀ queue cache ms c l,
      resolve_loop catalog metadata queue cache = .ok (ms, c, l) →
      ∀ k, (cache.lookup_type k).isSome → (c.lookup_type k).isSome := by
  induction metadata with
  | nil =>
    intro queue cache ms c l h k hk
    simp [resolve_loop] at h
    rw [← h.2.1]
    exact hk
  | cons m rest ih =>
    intro queue cache ms c l h k hk
    cases m with
    | resolved o a =>
      simp only [resolve_loop, PgTypeMetadata.oid] at h
      cases hr : resolve_loop catalog rest queue cache with
      | error e2 => rw [hr] at h; cases h
      | ok out =>
        obtain ⟨ms2, c2, l2⟩ := out
        rw [hr] at h
        simp at h
        rw [← h.2.1]
        exact ih queue cache ms2 c2 l2 hr k hk
    | unresolved e =>
      cases queue with
      | nil =>
        simp [resolve_loop, PgTypeMetadata.oid] at h
        rw [← h.2.1]
        exact hk
      | cons q rest_queue =>
        obtain ⟨schema, name⟩ := q
        simp only [resolve_loop, PgTypeMetadata.oid] at h
        cases hl : PgMetadataCache.lookup_type cache ⟨schema, name⟩ with
        | some entry =>
          rw [hl] at h
          cases hr : resolve_loop catalog rest rest_queue cache with
          | error e2 => rw [hr] at h; cases h
          | ok out =>
            obtain ⟨ms2, c2, l2⟩ := out
            rw [hr] at h
            simp at h
            rw [← h.2.1]
            exact ih rest_queue cache ms2 c2 l2 hr k hk
        | none =>
          rw [hl] at h
          cases hlt : lookup_type catalog schema name with
          | error e2 => simp [hlt] at h
          | ok tm =>
            cases hr : resolve_loop catalog rest rest_queue
                (cache.store_type ⟨schema, name⟩ tm) with
            | error e2 => simp [hlt, hr] at h
            | ok out =>
              obtain ⟨ms2, c2, l2⟩ := out
              simp [hlt, hr] at h
              rw [← h.2.1]
              exact ih rest_queue (cache.store_type ⟨schema, name⟩ tm) ms2 c2 l2
                hr k (store_preserves_lookup cache ⟨schema, name⟩ k tm hk)

/-- Round-trip accounting for the resolution loop: a key already cached at
the start is never looked up; no key is looked up more than once in a run;
and every key that was looked up is stored in the final cache. -/
theorem resolve_loop_round_trips
    (catalog : String → List String → List (Nat × Nat))
    (metadata : List PgTypeMetadata) :
    ∀ queue cache ms c l,
      resolve_loop catalog metadata queue cache = .ok (ms, c, l) →
      ∀ q : Option String × String,
        ((cache.lookup_type ⟨q.1, q.2⟩).isSome → l.count q = 0)
        ∧ l.count q ≤ 1
        ∧ (q ∈ l → (c.lookup_type ⟨q.1, q.2⟩).isSome) := by
  induction metadata with
  | nil =>
    intro queue cache ms c l h q
    simp [resolve_loop] at h
    obtain ⟨-, hc, hle⟩ := h
    subst hc
    subst hle
    simp
  | cons m rest ih =>
    intro queue cache ms c l h q
    obtain ⟨q1, q2⟩ := q
    cases m with
    | resolved o a =>
      simp only [resolve_loop, PgTypeMetadata.oid] at h
      cases hr : resolve_loop catalog rest queue cache with
      | error e2 => rw [hr] at h; cases h
      | ok out =>
        obtain ⟨ms2, c2, l2⟩ := out
        rw [hr] at h
        simp at h
        obtain ⟨-, hc, hle⟩ := h
        subst hc; subst hle
        exact ih queue cache ms2 c2 l2 hr (q1, q2)
    | unresolved e =>
      cases queue with
      | nil =>
        simp [resolve_loop, PgTypeMetadata.oid] at h
        obtain ⟨-, hc, hle⟩ := h
        subst hc
        subst hle
        simp
      | cons qq rest_queue =>
        obtain ⟨schema, name⟩ := qq
        simp only [resolve_loop, PgTypeMetadata.oid] at h
        cases hl : PgMetadataCache.lookup_type cache ⟨schema, name⟩ with
        | some entry =>
          rw [hl] at h
          cases hr : resolve_loop catalog rest rest_queue cache with
          | error e2 => rw [hr] at h; cases h
          | ok out =>
            obtain ⟨ms2, c2, l2⟩ := out
            rw [hr] at h
            simp at h
            obtain ⟨-, hc, hle⟩ := h
            subst hc; subst hle
            exact ih rest_queue cache ms2 c2 l2 hr (q1, q2)
        | none =>
          rw [hl] at h
          cases hlt : lookup_type catalog schema name with
          | error e2 => simp [hlt] at h
          | ok tm =>
            cases hr : resolve_loop catalog rest rest_queue
                (cache.store_type ⟨schema, name⟩ tm) with
            | error e2 => simp [hlt, hr] at h
            | ok out =>
              obtain ⟨ms2, c2, l2⟩ := out
              simp [hlt, hr] at h
              obtain ⟨-, hc, hle⟩ := h
              subst hc; subst hle
              have ihq := ih rest_queue (cache.store_type ⟨schema, name⟩ tm)
                ms2 c2 l2 hr (q1, q2)
              by_cases hqkey : (q1, q2) = (schema, name)
              · obtain ⟨hq1, hq2⟩ := Prod.mk.injEq .. ▸ hqkey
                subst hq1; subst hq2
                have hstored :
                    ((cache.store_type ⟨q1, q2⟩ tm).lookup_type ⟨q1, q2⟩).isSome := by
                  rw [store_lookup_self]; rfl
                have hzero : l2.count (q1, q2) = 0 := ihq.1 hstored
                refine ⟨?_, ?_, ?_⟩
                · intro hpre
                  rw [hl] at hpre
                  simp at hpre
                · simp [List.count_cons, hzero]
                · intro _
                  exact resolve_loop_cache_mono catalog rest rest_queue
                    (cache.store_type ⟨q1, q2⟩ tm) ms2 c2 l2 hr ⟨q1, q2⟩ hstored
              · have hkey2 : (⟨q1, q2⟩ : PgMetadataCacheKey) ≠ ⟨schema, name⟩ := by
                  intro hx
                  apply hqkey
                  injection hx with h1 h2
                  rw [h1, h2]
                refine ⟨?_, ?_, ?_⟩
                · intro hpre
                  have hpre2 :
                      ((cache.store_type ⟨schema, name⟩ tm).lookup_type ⟨q1, q2⟩).isSome :=
                    store_preserves_lookup cache ⟨schema, name⟩ ⟨q1, q2⟩ tm hpre
                  have hz := ihq.1 hpre2
                  simp [List.count_cons, hz, Ne.symm hqkey]
                · have hle1 := ihq.2.1
                  simp only [List.count_cons]
                  simp [Ne.symm hqkey]
                  omega
                · intro hmem
                  rcases List.mem_cons.mp hmem with hmem | hmem
                  · exact absurd hmem hqkey
                  · exact ihq.2.2 hmem

/-- C6: a custom-type cache hit returns the cached metadata with no catalog
round trip; a cache miss issues a catalog lookup (schema-qualified when a
schema was given) which errors unless it yields exactly one row, and the
result is stored in the cache; consequently, over any successful resolution
run, a key cached at the start is never looked up, no key is looked up more
than once, and every looked-up key ends up stored. -/
theorem metadata_cache_round_trip_semantics
    (catalog : String → List String → List (Nat × Nat))
    (rows : List (Nat × Nat)) (r : Nat × Nat) (s nm : String)
    (metadata : List PgTypeMetadata) (queue : List (Option String × String))
    (cache : PgMetadataCache) (entry : PgTypeMetadata)
    (e : FailedToLookupTypeError) (rest : List PgTypeMetadata)
    (rest_queue : List (Option String × String)) :
    query_one [r] = .ok r
    ∧ (rows.length ≠ 1 → ∃ msg, query_one rows = .error (.DatabaseError .Unknown msg))
    ∧ lookup_type catalog (some s) nm
        = query_one (catalog typeLookupSqlWithSchema [nm, s])
    ∧ lookup_type catalog none nm
        = query_one (catalog typeLookupSqlNoSchema [nm])
    ∧ (PgMetadataCache.lookup_type cache ⟨some s, nm⟩ = some entry →
        resolve_loop catalog (.unresolved e :: rest) ((some s, nm) :: rest_queue) cache
          = match resolve_loop catalog rest rest_queue cache with
            | .error e2 => .error e2
            | .ok (ms, c, l) => .ok (entry :: ms, c, l))
    ∧ (∀ ms c l, resolve_loop catalog metadata queue cache = .ok (ms, c, l) →
        ∀ q : Option String × String,
          ((cache.lookup_type ⟨q.1, q.2⟩).isSome → l.count q = 0)
          ∧ l.count q ≤ 1
          ∧ (q ∈ l → (c.lookup_type ⟨q.1, q.2⟩).isSome)) := by
  refine ⟨rfl, ?_, rfl, rfl, ?_, ?_⟩
  · intro hlen
    cases rows with
    | nil => exact ⟨"query returned an unexpected number of rows", rfl⟩
    | cons r1 rest2 =>
      cases rest2 with
      | nil => simp at hlen
      | cons r2 rest3 =>
        exact ⟨"query returned an unexpected number of rows", rfl⟩
  · intro hhit
    simp [resolve_loop, PgTypeMetadata.oid, hhit]
  · intro ms c l h q
    exact resolve_loop_round_trips catalog metadata queue cache ms c l h q

/-- Witness for C6: with queue entries naming the same key twice against an
empty cache, the run performs exactly one catalog lookup of that key. -/
theorem metadata_cache_round_trip_semantics_witness :
    List.count ((none : Option String), "t") [((none : Option String), "t")] = 1
    ∧ List.count ((none : Option String), "t") [((none : Option String), "t")] ≤ 1 := by
  have h := (metadata_cache_round_trip_semantics (fun _ _ => [(7, 8)])
    [(7, 8)] (7, 8) "s" "t"
    [.unresolved ⟨⟨none, "t"⟩⟩, .unresolved ⟨⟨none, "t"⟩⟩]
    [(none, "t"), (none, "t")] ⟨[]⟩ (.resolved 7 8) ⟨⟨none, "t"⟩⟩ [] []).2.2.2.2.2
    [.resolved 7 8, .resolved 7 8] ⟨[(⟨none, "t"⟩, (7, 8))]⟩ [(none, "t")]
    (by rfl) ((none : Option String), "t")
  exact ⟨by decide, h.2.1⟩

/-- Invariant of the pipelining scenario: every wire entry carries its
submitter's query literal, and a completed future carries its own query's
result. -/
def PipelineInv (s : PipelineState) : Prop :=
  (∀ p ∈ s.wire, (p.1 = false → p.2 = 1) ∧ (p.1 = true → p.2 = 2))
  ∧ (∀ v, s.f1 = .done v → v = 1)
  ∧ (∀ v, s.f2 = .done v → v = 2)

theorem pipeline_inv_step (s s2 : PipelineState) (hs : PipelineStep s s2)
    (hinv : PipelineInv s) : PipelineInv s2 := by
  obtain ⟨hw, h1, h2⟩ := hinv
  cases hs with
  | submit1 h =>
    refine ⟨?_, ?_, h2⟩
    · intro p hp
      rcases List.mem_append.mp hp with hp | hp
      · exact hw p hp
      · simp at hp
        subst hp
        exact ⟨fun _ => rfl, fun hc => Bool.noConfusion hc⟩
    · intro v hv
      cases hv
  | submit2 h =>
    refine ⟨?_, h1, ?_⟩
    · intro p hp
      rcases List.mem_append.mp hp with hp | hp
      · exact hw p hp
      · simp at hp
        subst hp
        exact ⟨fun hc => Bool.noConfusion hc, fun _ => rfl⟩
    · intro v hv
      cases hv
  | respond1 n rest h =>
    have hmem : ((false, n) : Bool × Nat) ∈ s.wire := by
      rw [h]; exact List.mem_cons_self _ _
    have hn : n = 1 := (hw _ hmem).1 rfl
    refine ⟨?_, ?_, h2⟩
    · intro p hp
      exact hw p (by rw [h]; exact List.mem_cons_of_mem _ hp)
    · intro v hv
      cases hv
      simpa [eval_select] using hn
  | respond2 n rest h =>
    have hmem : ((true, n) : Bool × Nat) ∈ s.wire := by
      rw [h]; exact List.mem_cons_self _ _
    have hn : n = 2 := (hw _ hmem).2 rfl
    refine ⟨?_, h1, ?_⟩
    · intro p hp
      exact hw p (by rw [h]; exact List.mem_cons_of_mem _ hp)
    · intro v hv
      cases hv
      simpa [eval_select] using hn

theorem pipeline_reachable_inv (s : PipelineState) (h : PipelineReachable s) :
    PipelineInv s := by
  induction h with
  | refl =>
    refine ⟨?_, ?_, ?_⟩
    · intro p hp
      simp [initPipeline] at hp
    · intro v hv
      cases hv
    · intro v hv
      cases hv
  | tail hr hs ih => exact pipeline_inv_step _ _ hs ih

/-- C10: in every interleaving of the two pipelined queries, a future that
completes carries its own query's value — `SELECT 1` resolves to 1 and
`SELECT 2` to 2 regardless of join order — and the fully completed state is
reachable. -/
theorem pipelining_join_order_independence :
    (∀ s, PipelineReachable s →
      (∀ v, s.f1 = .done v → v = 1) ∧ (∀ v, s.f2 = .done v → v = 2))
    ∧ PipelineReachable ⟨[], .done 1, .done 2⟩ := by
  constructor
  · intro s h
    exact ⟨(pipeline_reachable_inv s h).2.1, (pipeline_reachable_inv s h).2.2⟩
  · have t1 : PipelineStep initPipeline ⟨[(false, 1)], .submitted, .pending⟩ :=
      PipelineStep.submit1 initPipeline rfl
    have t2 : PipelineStep ⟨[(false, 1)], .submitted, .pending⟩
        ⟨[(false, 1), (true, 2)], .submitted, .submitted⟩ :=
      PipelineStep.submit2 ⟨[(false, 1)], .submitted, .pending⟩ rfl
    have t3 : PipelineStep ⟨[(false, 1), (true, 2)], .submitted, .submitted⟩
        ⟨[(true, 2)], .done 1, .submitted⟩ :=
      PipelineStep.respond1 ⟨[(false, 1), (true, 2)], .submitted, .submitted⟩
        1 [(true, 2)] rfl
    have t4 : PipelineStep ⟨[(true, 2)], .done 1, .submitted⟩
        ⟨[], .done 1, .done 2⟩ :=
      PipelineStep.respond2 ⟨[(true, 2)], .done 1, .submitted⟩ 2 [] rfl
    exact Relation.ReflTransGen.tail
      (Relation.ReflTransGen.tail
        (Relation.ReflTransGen.tail (Relation.ReflTransGen.single t1) t2) t3) t4

/-- Witness for C10 at the completed state. -/
theorem pipelining_join_order_independence_witness :
    PipelineReachable ⟨[], .done 1, .done 2⟩ ∧ (1 : Nat) = 1 ∧ (2 : Nat) = 2 := by
  refine ⟨pipelining_join_order_independence.2, ?_, ?_⟩
  · exact (pipelining_join_order_independence.1 ⟨[], .done 1, .done 2⟩
      pipelining_join_order_independence.2).1 1 rfl
  · exact (pipelining_join_order_independence.1 ⟨[], .done 1, .done 2⟩
      pipelining_join_order_independence.2).2 2 rfl

end DieselAsync
